import Mathlib

/-!
Verification of the workflow-manager execution engine.

This development shallowly embeds the execution engine of the repository:
the context-propagation decorators (`with_context` in `Tools/code_executor.py`
and `Tools/math_operations.py`), the kernel pool and submission loop
(`CodeExecutor.start_kernel` / `stop_kernel` / `execute_code` in
`Tools/code_executor.py`), and the task dispatcher
(`execute_task_by_code`, `execute_task_by_import`, `execute_workflow`
in `workflow_manager.py`).

Python values are modelled by the inductive type `Value`; Python dicts with
string keys (the shared context and every dict this program builds) are
modelled as association lists with unique keys and Python update semantics.
Python exceptions are modelled as a pair of exception-class name and message.
-/

/-- A single-quote character (Python's default string-repr quote). -/
def pyq : String := (Char.ofNat 39).toString

/-- Model of a Python value as used by this program: numbers, strings,
booleans, None, lists, and string-keyed dicts. -/
inductive Value where
  | none : Value
  | bool (b : Bool) : Value
  | int (n : Int) : Value
  | str (s : String) : Value
  | list (xs : List Value) : Value
  | dict (kvs : List (String × Value)) : Value
deriving Repr

mutual

/-- Decidable equality on values (written out because the nested
list/dict constructors defeat the automatic derivation). -/
def Value.decEq : (a b : Value) → Decidable (a = b)
  | .none, .none => .isTrue rfl
  | .bool x, .bool y =>
    if h : x = y then .isTrue (by rw [h]) else .isFalse (fun hc => h (Value.bool.inj hc))
  | .int x, .int y =>
    if h : x = y then .isTrue (by rw [h]) else .isFalse (fun hc => h (Value.int.inj hc))
  | .str x, .str y =>
    if h : x = y then .isTrue (by rw [h]) else .isFalse (fun hc => h (Value.str.inj hc))
  | .list xs, .list ys =>
    match Value.decEqList xs ys with
    | .isTrue h => .isTrue (by rw [h])
    | .isFalse h => .isFalse (fun hc => h (Value.list.inj hc))
  | .dict xs, .dict ys =>
    match Value.decEqKvs xs ys with
    | .isTrue h => .isTrue (by rw [h])
    | .isFalse h => .isFalse (fun hc => h (Value.dict.inj hc))
  | .none, .bool _ | .none, .int _ | .none, .str _ | .none, .list _ | .none, .dict _
  | .bool _, .none | .bool _, .int _ | .bool _, .str _ | .bool _, .list _ | .bool _, .dict _
  | .int _, .none | .int _, .bool _ | .int _, .str _ | .int _, .list _ | .int _, .dict _
  | .str _, .none | .str _, .bool _ | .str _, .int _ | .str _, .list _ | .str _, .dict _
  | .list _, .none | .list _, .bool _ | .list _, .int _ | .list _, .str _ | .list _, .dict _
  | .dict _, .none | .dict _, .bool _ | .dict _, .int _ | .dict _, .str _ | .dict _, .list _ =>
    .isFalse (fun hc => Value.noConfusion hc)

/-- Decidable equality on lists of values. -/
def Value.decEqList : (as bs : List Value) → Decidable (as = bs)
  | [], [] => .isTrue rfl
  | [], _ :: _ => .isFalse (fun hc => List.noConfusion hc)
  | _ :: _, [] => .isFalse (fun hc => List.noConfusion hc)
  | a :: as, b :: bs =>
    match Value.decEq a b with
    | .isFalse h => .isFalse (fun hc => h (List.cons.inj hc).1)
    | .isTrue h =>
      match Value.decEqList as bs with
      | .isTrue h2 => .isTrue (by rw [h, h2])
      | .isFalse h2 => .isFalse (fun hc => h2 (List.cons.inj hc).2)

/-- Decidable equality on string-keyed entry lists. -/
def Value.decEqKvs : (as bs : List (String × Value)) → Decidable (as = bs)
  | [], [] => .isTrue rfl
  | [], _ :: _ => .isFalse (fun hc => List.noConfusion hc)
  | _ :: _, [] => .isFalse (fun hc => List.noConfusion hc)
  | (k, a) :: as, (k2, b) :: bs =>
    if hk : k = k2 then
      match Value.decEq a b with
      | .isFalse h =>
        .isFalse (fun hc => h (congrArg Prod.snd (List.cons.inj hc).1))
      | .isTrue h =>
        match Value.decEqKvs as bs with
        | .isTrue h2 => .isTrue (by rw [hk, h, h2])
        | .isFalse h2 => .isFalse (fun hc => h2 (List.cons.inj hc).2)
    else
      .isFalse (fun hc => hk (congrArg Prod.fst (List.cons.inj hc).1))

end

instance : DecidableEq Value := Value.decEq

instance {ε α : Type} [DecidableEq ε] [DecidableEq α] : DecidableEq (Except ε α) := fun a b =>
  match a, b with
  | .ok x, .ok y =>
    if h : x = y then .isTrue (by rw [h]) else .isFalse (fun hc => h (Except.ok.inj hc))
  | .error x, .error y =>
    if h : x = y then .isTrue (by rw [h]) else .isFalse (fun hc => h (Except.error.inj hc))
  | .ok _, .error _ => .isFalse (fun hc => Except.noConfusion hc)
  | .error _, .ok _ => .isFalse (fun hc => Except.noConfusion hc)

/-- Model of a Python exception: class name (e.g. "ValueError") and message. -/
structure PyErr where
  ename : String
  evalue : String
deriving DecidableEq, Repr

/-- `str(e)` on a caught exception: just the message. -/
def PyErr.msg (e : PyErr) : String := e.evalue

/-- The `"{ename}: {evalue}"` string built by `execute_code` for error events. -/
def PyErr.display (e : PyErr) : String := e.ename ++ ": " ++ e.evalue

/-- The shared context: a Python dict from variable names to values,
modelled as an association list with unique keys. -/
abbrev Context := List (String × Value)

/-- Membership test `k in d` on a Python dict. -/
def ctxMem (ctx : Context) (k : String) : Bool :=
  ctx.any (fun p => p.1 = k)

/-- `d.get(k)` / `d[k]` lookup on a Python dict. -/
def ctxGet (ctx : Context) (k : String) : Option Value :=
  (ctx.find? (fun p => p.1 = k)).map Prod.snd

/-- `d[k] = v` on a Python dict: overwrite in place if the key exists,
otherwise append (Python dicts keep insertion order). -/
def ctxSet (ctx : Context) (k : String) (v : Value) : Context :=
  if ctxMem ctx k then
    ctx.map (fun p => if p.1 = k then (k, v) else p)
  else
    ctx ++ [(k, v)]

/-- `d.update(other)` on a Python dict: set each key of `other` in order. -/
def ctxUpdate (ctx upd : Context) : Context :=
  upd.foldl (fun c p => ctxSet c p.1 p.2) ctx

/-- The key set (`d.keys()`) of a context. -/
def ctxKeys (ctx : Context) : List String := ctx.map Prod.fst

/-- A tool function as defined by a tool's source text: its name, its
declared parameter names (in declaration order), and its body, which
receives the bound arguments in parameter order and either returns a
value or raises. -/
structure ToolFunc where
  name : String
  params : List String
  body : List Value → Except PyErr Value

/-- `Tools/code_executor.py`, `with_context`, parameter extraction
(lines 36-41): each declared parameter is read from the context; a missing
one raises `ValueError(f"Required parameter '{p}' not found in context")`. -/
def bindParamsCE (params : List String) (ctx : Context) : Except PyErr (List Value) :=
  match params with
  | [] => .ok []
  | p :: rest =>
    match ctxGet ctx p with
    | some v => (bindParamsCE rest ctx).map (fun vs => v :: vs)
    | Option.none =>
      .error ⟨"ValueError", "Required parameter " ++ pyq ++ p ++ pyq ++ " not found in context"⟩

/-- `Tools/math_operations.py`, `with_context`, parameter extraction
(lines 15-17): `kwargs[p] = context.get(p)` — a missing parameter is bound
to `None`, never an error. -/
def bindParamsMO (params : List String) (ctx : Context) : List Value :=
  params.map (fun p => (ctxGet ctx p).getD Value.none)

/-- Result folding of `Tools/code_executor.py` `with_context` (lines 46-55):
`None` result gives an empty dict, a dict result is returned as is, and any
other result is stored under the bare function name `func.__name__`. -/
def foldCE (fname : String) (result : Value) : Context :=
  match result with
  | .none => []
  | .dict kvs => kvs
  | v => [(fname, v)]

/-- Result folding of `Tools/math_operations.py` `with_context` (lines 22-31):
`None` gives an empty dict, a dict is returned as is, and any other result is
stored under the derived key `f"{func.__name__}_result"`. -/
def foldMO (fname : String) (result : Value) : Context :=
  match result with
  | .none => []
  | .dict kvs => kvs
  | v => [(fname ++ "_result", v)]

/-- The wrapper made by `with_context` in `Tools/code_executor.py`
(lines 25-57): bind each declared parameter from the context (raising on a
missing one), call the function, fold its result. -/
def withContextCE (f : ToolFunc) (ctx : Context) : Except PyErr Context :=
  match bindParamsCE f.params ctx with
  | .error e => .error e
  | .ok args =>
    match f.body args with
    | .error e => .error e
    | .ok r => .ok (foldCE f.name r)

/-- The wrapper made by `with_context` in `Tools/math_operations.py`
(lines 4-33): bind each declared parameter via `context.get` (missing ones
become `None`), call the function, fold its result. -/
def withContextMO (f : ToolFunc) (ctx : Context) : Except PyErr Context :=
  match f.body (bindParamsMO f.params ctx) with
  | .error e => .error e
  | .ok r => .ok (foldMO f.name r)

/-- The single-quote character. -/
def qChar : Char := Char.ofNat 39

/-- The backslash character. -/
def bsChar : Char := Char.ofNat 92

/-- The opening-brace character. -/
def lbraceC : Char := Char.ofNat 123

/-- The closing-brace character. -/
def rbraceC : Char := Char.ofNat 125

/-- Escaping done by Python string repr: backslash-escape quotes and
backslashes (the model always uses single-quoted form). -/
def escChar (c : Char) : List Char :=
  if c = qChar ∨ c = bsChar then [bsChar, c] else [c]

/-- Escape a whole string for repr. -/
def escapePy (s : String) : String :=
  ⟨s.toList.foldr (fun c acc => escChar c ++ acc) []⟩

mutual

/-- Model of Python `repr` on the values this program ships between the
kernel and the manager (the kernel sends `repr(result)` as the
execute-result text, `workflow_manager.py` line 650 / `code_executor.py`
line 193). -/
def reprValue : Value → String
  | .none => "None"
  | .bool b => if b then "True" else "False"
  | .int n => toString n
  | .str s => pyq ++ escapePy s ++ pyq
  | .list xs => "[" ++ reprList xs ++ "]"
  | .dict kvs => "\x7b" ++ reprKvs kvs ++ "\x7d"

/-- Comma-joined reprs of list elements. -/
def reprList : List Value → String
  | [] => ""
  | [v] => reprValue v
  | v :: rest => reprValue v ++ ", " ++ reprList rest

/-- Comma-joined reprs of dict entries. -/
def reprKvs : List (String × Value) → String
  | [] => ""
  | [(k, v)] => pyq ++ escapePy k ++ pyq ++ ": " ++ reprValue v
  | (k, v) :: rest => pyq ++ escapePy k ++ pyq ++ ": " ++ reprValue v ++ ", " ++ reprKvs rest

end

/-- A Python expression as `eval` sees it after parsing: the literal forms
(numbers, strings, booleans, None, lists, string-keyed dicts) plus
non-literal forms that `eval` also accepts — name references and calls.
The model restricts dict keys to string literals and call targets to plain
names, which covers everything this program ships or could be fed. -/
inductive PyExpr where
  | noneE : PyExpr
  | boolE (b : Bool) : PyExpr
  | intE (n : Int) : PyExpr
  | strE (s : String) : PyExpr
  | listE (xs : List PyExpr) : PyExpr
  | dictE (kvs : List (String × PyExpr)) : PyExpr
  | nameE (id : String) : PyExpr
  | callE (fn : String) (args : List PyExpr) : PyExpr
deriving Repr

mutual

/-- Whether an expression lies inside the constrained literal grammar
(numbers, strings, booleans, null, sequences, mappings only). -/
def isLiteralExpr : PyExpr → Bool
  | .noneE => true
  | .boolE _ => true
  | .intE _ => true
  | .strE _ => true
  | .listE xs => isLiteralList xs
  | .dictE kvs => isLiteralKvs kvs
  | .nameE _ => false
  | .callE _ _ => false

/-- Literal check for expression lists. -/
def isLiteralList : List PyExpr → Bool
  | [] => true
  | e :: rest => isLiteralExpr e && isLiteralList rest

/-- Literal check for dict entries. -/
def isLiteralKvs : List (String × PyExpr) → Bool
  | [] => true
  | (_, e) :: rest => isLiteralExpr e && isLiteralKvs rest

end

/-- The evaluation environment `eval` runs in: the caller's global
namespace, resolving name references and carrying out calls (running
whatever code those names denote). -/
structure PyEnv where
  lookupVar : String → Except PyErr Value
  callFn : String → List Value → Except PyErr Value

mutual

/-- Model of Python's builtin `eval` on a parsed expression
(`workflow_manager.py` line 675 evaluates the worker's output text with
the interpreter's general `eval`): literal forms evaluate to themselves,
name references are resolved in the environment, and calls invoke the
named function — that is, they execute code. -/
def pyEval (env : PyEnv) : PyExpr → Except PyErr Value
  | .noneE => .ok .none
  | .boolE b => .ok (.bool b)
  | .intE n => .ok (.int n)
  | .strE s => .ok (.str s)
  | .listE xs =>
    match pyEvalList env xs with
    | .error e => .error e
    | .ok vs => .ok (.list vs)
  | .dictE kvs =>
    match pyEvalKvs env kvs with
    | .error e => .error e
    | .ok vs => .ok (.dict vs)
  | .nameE id => env.lookupVar id
  | .callE fn args =>
    match pyEvalList env args with
    | .error e => .error e
    | .ok vs => env.callFn fn vs

/-- Evaluate each element of a list expression. -/
def pyEvalList (env : PyEnv) : List PyExpr → Except PyErr (List Value)
  | [] => .ok []
  | e :: rest =>
    match pyEval env e with
    | .error err => .error err
    | .ok v =>
      match pyEvalList env rest with
      | .error err => .error err
      | .ok vs => .ok (v :: vs)

/-- Evaluate each entry of a dict expression. -/
def pyEvalKvs (env : PyEnv) : List (String × PyExpr) → Except PyErr (List (String × Value))
  | [] => .ok []
  | (k, e) :: rest =>
    match pyEval env e with
    | .error err => .error err
    | .ok v =>
      match pyEvalKvs env rest with
      | .error err => .error err
      | .ok vs => .ok ((k, v) :: vs)

end

/-- The empty environment: every name lookup and call raises `NameError`
(used to state environment-independence of literal evaluation). -/
def noEnv : PyEnv :=
  ⟨fun id => .error ⟨"NameError", "name " ++ pyq ++ id ++ pyq ++ " is not defined"⟩,
   fun fn _ => .error ⟨"NameError", "name " ++ pyq ++ fn ++ pyq ++ " is not defined"⟩⟩

/-- Modelled from the spec: the constrained structured-value parser of
spec sections 4.4/9 — "restricted to numbers/strings/booleans/null/
sequences/mappings", "never arbitrary code execution". An expression
inside the literal grammar evaluates to its structured value (no
environment is consulted); anything outside the grammar is rejected. -/
def constrainedLiteralEval (e : PyExpr) : Except PyErr Value :=
  if isLiteralExpr e then pyEval noEnv e
  else .error ⟨"ValueError", "malformed node or string"⟩

/-- Drop leading whitespace. -/
def skipWs : List Char → List Char
  | [] => []
  | c :: cs => if c.isWhitespace then skipWs cs else c :: cs

/-- Digits to a natural number. -/
def natOfDigits (ds : List Char) : Nat :=
  ds.foldl (fun a c => a * 10 + (c.toNat - 48)) 0

/-- Parse a run of decimal digits. -/
def parseNat (cs : List Char) : Option (Nat × List Char) :=
  let ds := cs.takeWhile (fun c => c.isDigit)
  if ds.isEmpty then Option.none else some (natOfDigits ds, cs.drop ds.length)

/-- Parse the body of a single-quoted string (after the opening quote),
undoing backslash escapes, up to the closing quote. -/
def parseStrBody : Nat → List Char → Option (String × List Char)
  | 0, _ => Option.none
  | _, [] => Option.none
  | fuel + 1, c :: rest =>
    if c = qChar then some ("", rest)
    else if c = bsChar then
      match rest with
      | [] => Option.none
      | e :: rest2 =>
        (parseStrBody fuel rest2).map (fun p => ((String.singleton e) ++ p.1, p.2))
    else
      (parseStrBody fuel rest).map (fun p => ((String.singleton c) ++ p.1, p.2))

/-- An identifier character. -/
def isIdentChar (c : Char) : Bool := c.isAlphanum || c = '_'

mutual

/-- Parse one expression of the `PyExpr` grammar (model of the parsing
stage of `eval`, which accepts general Python expression syntax — it does
not reject non-literal forms). Fuel-driven recursive descent. -/
def parseExprF : Nat → List Char → Option (PyExpr × List Char)
  | 0, _ => Option.none
  | fuel + 1, cs0 =>
    match skipWs cs0 with
    | [] => Option.none
    | c :: rest =>
      if c = lbraceC then
        match parseKvItems fuel (skipWs rest) true with
        | some (kvs, r) => some (PyExpr.dictE kvs, r)
        | Option.none => Option.none
      else if c = '[' then
        match parseItems fuel (skipWs rest) ']' true with
        | some (xs, r) => some (PyExpr.listE xs, r)
        | Option.none => Option.none
      else if c = qChar then
        (parseStrBody fuel rest).map (fun p => (PyExpr.strE p.1, p.2))
      else if c = '-' then
        (parseNat rest).map (fun p => (PyExpr.intE (-(p.1 : Int)), p.2))
      else if c.isDigit then
        (parseNat (c :: rest)).map (fun p => (PyExpr.intE (p.1 : Int), p.2))
      else if c.isAlpha || c = '_' then
        let idcs := (c :: rest).takeWhile isIdentChar
        let after := (c :: rest).drop idcs.length
        let id : String := ⟨idcs⟩
        if id = "None" then some (PyExpr.noneE, after)
        else if id = "True" then some (PyExpr.boolE true, after)
        else if id = "False" then some (PyExpr.boolE false, after)
        else
          match skipWs after with
          | '(' :: rest2 =>
            match parseItems fuel (skipWs rest2) ')' true with
            | some (args, r) => some (PyExpr.callE id args, r)
            | Option.none => Option.none
          | _ => some (PyExpr.nameE id, after)
      else Option.none

/-- Parse comma-separated expressions up to the closing bracket. -/
def parseItems : Nat → List Char → Char → Bool → Option (List PyExpr × List Char)
  | 0, _, _, _ => Option.none
  | _, [], _, _ => Option.none
  | fuel + 1, c :: rest, closing, first =>
    if c = closing then some ([], rest)
    else if first then
      match parseExprF fuel (c :: rest) with
      | Option.none => Option.none
      | some (e, r) =>
        match parseItems fuel (skipWs r) closing false with
        | Option.none => Option.none
        | some (es, r2) => some (e :: es, r2)
    else if c = ',' then
      match parseExprF fuel rest with
      | Option.none => Option.none
      | some (e, r) =>
        match parseItems fuel (skipWs r) closing false with
        | Option.none => Option.none
        | some (es, r2) => some (e :: es, r2)
    else Option.none

/-- Parse comma-separated `'key': expr` entries up to the closing brace. -/
def parseKvItems : Nat → List Char → Bool → Option (List (String × PyExpr) × List Char)
  | 0, _, _ => Option.none
  | _, [], _ => Option.none
  | fuel + 1, c :: rest, first =>
    if c = rbraceC then some ([], rest)
    else if first then
      match parseKvEntry fuel (c :: rest) with
      | Option.none => Option.none
      | some (kv, r) =>
        match parseKvItems fuel (skipWs r) false with
        | Option.none => Option.none
        | some (kvs, r2) => some (kv :: kvs, r2)
    else if c = ',' then
      match parseKvEntry fuel (skipWs rest) with
      | Option.none => Option.none
      | some (kv, r) =>
        match parseKvItems fuel (skipWs r) false with
        | Option.none => Option.none
        | some (kvs, r2) => some (kv :: kvs, r2)
    else Option.none

/-- Parse one `'key': expr` dict entry. -/
def parseKvEntry : Nat → List Char → Option ((String × PyExpr) × List Char)
  | 0, _ => Option.none
  | _, [] => Option.none
  | fuel + 1, c :: rest =>
    if c = qChar then
      match parseStrBody fuel rest with
      | Option.none => Option.none
      | some (k, r) =>
        match skipWs r with
        | ':' :: r2 =>
          match parseExprF fuel r2 with
          | Option.none => Option.none
          | some (v, r3) => some ((k, v), r3)
        | _ => Option.none
    else Option.none

end

/-- Parse a whole output text as one Python expression (the parsing stage
of `eval`); trailing non-whitespace makes the parse fail, as `eval`
raises `SyntaxError` there. -/
def parsePyExpr (s : String) : Option PyExpr :=
  match parseExprF (s.length + 1) s.toList with
  | some (e, r) => if (skipWs r).isEmpty then some e else Option.none
  | Option.none => Option.none

/-- Model of `eval(output)` at `workflow_manager.py` line 675: parse the
output text as one expression (a failed parse is a raised `SyntaxError`)
and evaluate it in the manager-process environment. -/
def evalOutput (env : PyEnv) (s : String) : Except PyErr Value :=
  match parsePyExpr s with
  | Option.none => .error ⟨"SyntaxError", "invalid syntax"⟩
  | some e => pyEval env e

/-- Whether `needle` starts `hay`. -/
def startsWithL (needle hay : List Char) : Bool :=
  match needle, hay with
  | [], _ => true
  | _ :: _, [] => false
  | a :: as, b :: bs => a = b && startsWithL as bs

/-- Whether `needle` occurs anywhere in `hay`. -/
def containsL (needle hay : List Char) : Bool :=
  match hay with
  | [] => startsWithL needle []
  | _ :: rest => startsWithL needle hay || containsL needle rest

/-- Python's `sub in s` substring test. -/
def strContains (s sub : String) : Bool := containsL sub.toList s.toList

/-- One message from the worker's output channel, as classified by
`execute_code` (`Tools/code_executor.py` lines 186-202): partial stream
text, an expression-result text, an error event, or a status event. -/
inductive MsgType where
  | stream (text : String) : MsgType
  | executeResult (text : String) : MsgType
  | errEvent (e : PyErr) : MsgType
  | status (state : String) : MsgType
  | other : MsgType
deriving Repr

/-- One turn of the polling loop in `execute_code` (lines 176-207), with
the wall-clock time that turn consumed:
* `msg`: `get_iopub_msg` delivered a message (correlated to this
  submission or not) within its one-second wait;
* `empty`: `get_iopub_msg` hit its one-second wait and the
  `Empty` branch continues the loop;
* `timeoutHit`: the enclosing per-poll `asyncio.wait_for(..., timeout)`
  expired — only possible when a single wait reaches the full `timeout`;
* `chanRaise`: the channel raised some other exception. -/
inductive PollEvent where
  | msg (correlated : Bool) (m : MsgType) (dt : Nat) : PollEvent
  | empty (dt : Nat) : PollEvent
  | timeoutHit (dt : Nat) : PollEvent
  | chanRaise (text : String) (dt : Nat) : PollEvent
deriving Repr

/-- The loop state of `execute_code`: accumulated `output` list, the
`error` slot, and elapsed wall-clock time since `kc.execute`. -/
structure ExecState where
  output : List String
  error : Option String
  elapsed : Nat
deriving Repr, DecidableEq

/-- The initial loop state. -/
def initExecState : ExecState := ⟨[], Option.none, 0⟩

/-- How the polling loop of `execute_code` left off: `finished` means a
`break` (idle status, per-poll timeout, or channel exception) ended the
loop; `exhausted` means the supplied event trace ran out while the loop
was still going — the loop had not terminated by then. -/
inductive LoopExit where
  | finished (st : ExecState) : LoopExit
  | exhausted (st : ExecState) : LoopExit
deriving Repr, DecidableEq

/-- The polling loop of `execute_code` (`Tools/code_executor.py` lines
175-207) over a trace of poll turns: correlated stream and
execute-result texts are appended to `output` in arrival order; a
correlated error event overwrites `error` and the loop continues; a
correlated idle status breaks; uncorrelated or other messages are
ignored; `Empty` continues; a per-poll timeout sets
`error = "Execution timed out"` and breaks; a channel exception sets
`error` to its text and ends the loop. -/
def pollLoop : List PollEvent → ExecState → LoopExit
  | [], st => .exhausted st
  | ev :: rest, st =>
    match ev with
    | .msg correlated m dt =>
      let st1 : ExecState := { st with elapsed := st.elapsed + dt }
      if correlated then
        match m with
        | .stream t => pollLoop rest { st1 with output := st1.output ++ [t] }
        | .executeResult t => pollLoop rest { st1 with output := st1.output ++ [t] }
        | .errEvent e => pollLoop rest { st1 with error := some e.display }
        | .status s => if s = "idle" then .finished st1 else pollLoop rest st1
        | .other => pollLoop rest st1
      else pollLoop rest st1
    | .empty dt => pollLoop rest { st with elapsed := st.elapsed + dt }
    | .timeoutHit dt =>
      .finished { st with elapsed := st.elapsed + dt, error := some "Execution timed out" }
    | .chanRaise text dt =>
      .finished { st with elapsed := st.elapsed + dt, error := some text }

/-- The post-loop result selection of `execute_code` (lines 217-222): the
last output item that is non-empty and not all whitespace, else `None`. -/
def lastNonEmpty (output : List String) : Option String :=
  output.reverse.find? (fun s => !(s.toList.all (fun c => c.isWhitespace)))

/-- What `execute_code` hands back (first two components of its return
tuple): the output — an error string, the selected result text, or `None`
— and the execution time. `Option.none` for the whole result means the
polling loop was still running when the supplied trace ended. -/
def executeCodeResult (trace : List PollEvent) : Option (Option String × Nat) :=
  match pollLoop trace initExecState with
  | .exhausted _ => Option.none
  | .finished st =>
    match st.error with
    | some e => some (some e, st.elapsed)
    | Option.none => some (lastNonEmpty st.output, st.elapsed)

/-- Register a kernel id in the pool registry (`self.kernels[kernel_id] =
{...}`): a Python dict assignment, so an existing id is overwritten in
place and a new id is appended. Only the id set matters to the claims, so
the registry is modelled as its key list. -/
def poolInsert (pool : List String) (kid : String) : List String :=
  if pool.contains kid then pool else pool ++ [kid]

/-- `CodeExecutor.start_kernel` (`Tools/code_executor.py` lines 94-114):
refuse (returning `None`) when the registry has reached `max_kernels`;
otherwise use the requested id or the freshly generated one, start the
kernel, register it, and return the id. -/
def startKernel (maxKernels : Nat) (genId : String) (reqId : Option String)
    (pool : List String) : Option String × List String :=
  if pool.length ≥ maxKernels then (Option.none, pool)
  else
    let kid := reqId.getD genId
    (some kid, poolInsert pool kid)

/-- `CodeExecutor.stop_kernel` (lines 116-139): a no-op for an unknown id,
otherwise shut the kernel down and delete it from the registry. -/
def stopKernel (kid : String) (pool : List String) : List String :=
  if pool.contains kid then pool.filter (fun k => k ≠ kid) else pool

/-- One pool operation: a start (with the id the uuid generator would
produce, and an optional caller-requested id) or a stop. -/
inductive PoolOp where
  | start (genId : String) (reqId : Option String) : PoolOp
  | stop (kid : String) : PoolOp

/-- Run a sequence of start/stop operations against the registry. -/
def applyPoolOps (maxKernels : Nat) : List PoolOp → List String → List String
  | [], pool => pool
  | op :: rest, pool =>
    match op with
    | .start g r => applyPoolOps maxKernels rest (startKernel maxKernels g r pool).2
    | .stop kid => applyPoolOps maxKernels rest (stopKernel kid pool)

/-- The `max_kernels=3` the manager constructs its `CodeExecutor` with
(`workflow_manager.py` line 29). -/
def mgrMaxKernels : Nat := 3

/-- The manager-side mutable execution state: the kernel registry plus a
counter feeding the fresh-id generator (`uuid.uuid4`). -/
structure MgrState where
  pool : List String
  fresh : Nat
deriving DecidableEq, Repr

/-- The id the uuid generator hands out for the n-th request. -/
def genKernelId (n : Nat) : String := "kern-" ++ toString n

/-- A tool record as the dispatcher sees it: name, optional embedded
source (carried as the function that source defines — the dispatcher
takes the code path exactly when `tool_code` is present and non-blank, so
a blank `tool_code` is modelled as absence), and optional import path. -/
structure Tool where
  name : String
  toolCode : Option ToolFunc
  importFrom : Option String

/-- What a task-execution call returns (`execute_task_by_code` /
`execute_task_by_import`): the success flag, and on failure the error
detail, the failing task's name and, for parse failures, the raw output,
plus in every case the context being handed back. -/
structure TaskResult where
  success : Bool
  error : Option String
  task : Option String
  rawOutput : Option String
  context : Context
deriving DecidableEq, Repr

/-- Model of the worker kernel executing the program synthesized at
`workflow_manager.py` lines 636-651: the program imports `with_context`
from `Tools.code_executor`, binds the context literal, runs the tool
source (defining the tool function), computes
`result = with_context(f)(context)` and ends with the bare expression
`result`. The kernel emits an error event when the wrapper raises, else
an execute-result event carrying `repr(result)`; either way an idle
status follows. -/
def kernelRun (f : ToolFunc) (ctx : Context) : List PollEvent :=
  match withContextCE f ctx with
  | .error e => [.msg true (.errEvent e) 1, .msg true (.status "idle") 0]
  | .ok d => [.msg true (.executeResult (reprValue (.dict d))) 1, .msg true (.status "idle") 0]

/-- The environment the engine runs against: the manager process's global
namespace (for `eval`) and the import machinery — `(module, symbol) ↦`
the callable, or the exception (`ModuleNotFoundError` / `AttributeError`)
the resolution raises. -/
structure SysEnv where
  evalEnv : PyEnv
  importResolve : String → String → Except PyErr (Context → Except PyErr Value)

/-- `WorkflowManager.execute_task_by_code` (`workflow_manager.py` lines
623-704): require `tool_code`; start a kernel (a refusal is the caught
`RuntimeError("Failed to start kernel")`); run the synthesized program via
`execute_code`; if the output text contains `"Error:"` or `"Exception:"`
report failure with the output as the error; otherwise `eval` the output
(`None` output means an empty result), re-key a non-dict value under the
bare tool name, merge with `context.update`, and report success; an
exception while parsing is the `"Failed to parse output"` failure. -/
def executeTaskByCode (env : SysEnv) (taskName : String) (tool : Tool) (ctx : Context)
    (st : MgrState) : TaskResult × MgrState :=
  match tool.toolCode with
  | Option.none =>
    (⟨false, some ("Tool " ++ tool.name ++ " does not have tool_code"), some taskName,
      Option.none, ctx⟩, st)
  | some f =>
    match startKernel mgrMaxKernels (genKernelId st.fresh) Option.none st.pool with
    | (Option.none, pool1) =>
      (⟨false, some "Failed to start kernel", some taskName, Option.none, ctx⟩,
       ⟨pool1, st.fresh⟩)
    | (some _, pool1) =>
      let st1 : MgrState := ⟨pool1, st.fresh + 1⟩
      match executeCodeResult (kernelRun f ctx) with
      | Option.none =>
        (⟨false, some "submission still polling", some taskName, Option.none, ctx⟩, st1)
      | some (output, _) =>
        match output with
        | Option.none => (⟨true, Option.none, Option.none, Option.none, ctxUpdate ctx []⟩, st1)
        | some out =>
          if strContains out "Error:" || strContains out "Exception:" then
            (⟨false, some out, some taskName, Option.none, ctx⟩, st1)
          else
            match evalOutput env.evalEnv out with
            | .error e =>
              (⟨false, some ("Failed to parse output: " ++ e.msg), some taskName,
                some out, ctx⟩, st1)
            | .ok v =>
              let d : Context := match v with | .dict kvs => kvs | v2 => [(tool.name, v2)]
              (⟨true, Option.none, Option.none, Option.none, ctxUpdate ctx d⟩, st1)

/-- `WorkflowManager.execute_task_by_import` (`workflow_manager.py` lines
706-741): require `import_from`; resolve the module and the symbol (the
function name falls back to the tool name when `tool_code` is absent);
call the resolved function on the context; fold the result — `None` means
no mutation, a dict merges as is, any other value is stored under
`f"{function_name}_result"` — merge with `context.update` and report
success; any exception is a failure carrying `str(e)`. -/
def executeTaskByImport (env : SysEnv) (taskName : String) (tool : Tool)
    (ctx : Context) : TaskResult :=
  match tool.importFrom with
  | Option.none =>
    ⟨false, some ("Tool " ++ tool.name ++ " does not have import_from attribute"),
     some taskName, Option.none, ctx⟩
  | some modPath =>
    match env.importResolve modPath tool.name with
    | .error e => ⟨false, some e.msg, some taskName, Option.none, ctx⟩
    | .ok func =>
      match func ctx with
      | .error e => ⟨false, some e.msg, some taskName, Option.none, ctx⟩
      | .ok v => ⟨true, Option.none, Option.none, Option.none, ctxUpdate ctx (foldMO tool.name v)⟩

/-- One row of the task list the workflow query returns: task name, its
tool, and the `order` field on the CONTAINS relationship. -/
structure WfEntry where
  taskName : String
  tool : Tool
  order : Int

/-- Comparison by `order` (the `ORDER BY r.order` of the task query). -/
def entryLE (a b : WfEntry) : Prop := a.order ≤ b.order

instance : DecidableRel entryLE := fun a b => Int.decLe a.order b.order

instance : IsTotal WfEntry entryLE := ⟨fun a b => Int.le_total a.order b.order⟩

instance : IsTrans WfEntry entryLE := ⟨fun _ _ _ => Int.le_trans⟩

/-- One turn of the task loop of `execute_workflow` (lines 776-781): pick
the code path when `tool_code` is present (and non-blank) and the import
path otherwise. -/
def stepTask (env : SysEnv) (e : WfEntry) (ctx : Context) (st : MgrState) :
    TaskResult × MgrState :=
  match e.tool.toolCode with
  | some _ => executeTaskByCode env e.taskName e.tool ctx st
  | Option.none => (executeTaskByImport env e.taskName e.tool ctx, st)

/-- The task loop of `WorkflowManager.execute_workflow` (lines 776-796)
over the already-sorted task list: run each task's step; on a non-success
result return it at once; otherwise thread the returned context into the
next task; after the last task report success. -/
def executeWorkflowTasks (env : SysEnv) :
    List WfEntry → Context → MgrState → TaskResult × MgrState
  | [], ctx, st => (⟨true, Option.none, Option.none, Option.none, ctx⟩, st)
  | e :: rest, ctx, st =>
    let step := stepTask env e ctx st
    if step.1.success then executeWorkflowTasks env rest step.1.context step.2
    else step

/-- `WorkflowManager.execute_workflow` (lines 743-796): fetch the
workflow's tasks ordered by the `order` field (`ORDER BY r.order`,
modelled as an insertion sort on `order`) and run the task loop on them. -/
def executeWorkflow (env : SysEnv) (entries : List WfEntry) (initCtx : Context)
    (st : MgrState) : TaskResult × MgrState :=
  executeWorkflowTasks env (List.insertionSort entryLE entries) initCtx st

/-- An imported module function that was decorated with the
`Tools/math_operations.py` `with_context` (as `add_numbers`,
`multiply_by_two` and `format_result` there are), seen as the callable
`execute_task_by_import` resolves: it returns the folded dict. -/
def importedMO (f : ToolFunc) : Context → Except PyErr Value :=
  fun ctx => (withContextMO f ctx).map Value.dict

/-- A value that is neither `None` nor a mapping — what the folding code
calls "any other scalar". -/
def isScalarV : Value → Bool
  | .none => false
  | .dict _ => false
  | _ => true

/-- Whether a trace carries a correlated error event. -/
def hasErrEvent (tr : List PollEvent) : Bool :=
  tr.any (fun ev =>
    match ev with
    | .msg correlated (.errEvent _) _ => correlated
    | _ => false)

/-- Whether a trace carries a correlated idle status event. -/
def hasIdle (tr : List PollEvent) : Bool :=
  tr.any (fun ev =>
    match ev with
    | .msg correlated (.status s) _ => correlated && s = "idle"
    | _ => false)

/-- A poll turn that neither records an error nor ends the loop: any
uncorrelated message, a correlated stream/result/other message, a
correlated non-idle status, or an `Empty` wait. -/
def benignEvent : PollEvent → Bool
  | .msg correlated m _ =>
    match m with
    | .stream _ => true
    | .executeResult _ => true
    | .other => true
    | .errEvent _ => !correlated
    | .status s => !correlated || !(s = "idle" : Bool)
  | .empty _ => true
  | .timeoutHit _ => false
  | .chanRaise _ _ => false

/-- The output text one poll turn contributes: the text of a correlated
stream or execute-result message, nothing otherwise. -/
def eventOut : PollEvent → List String
  | .msg true (.stream t) _ => [t]
  | .msg true (.executeResult t) _ => [t]
  | _ => []

/-- The correlated stream and execute-result texts of a trace, in
arrival order — the full accumulation the loop appends to `output`. -/
def collectOut : List PollEvent → List String
  | [] => []
  | ev :: rest => eventOut ev ++ collectOut rest

/-- The wall-clock time one poll turn consumes. -/
def eventDt : PollEvent → Nat
  | .msg _ _ dt => dt
  | .empty dt => dt
  | .timeoutHit dt => dt
  | .chanRaise _ dt => dt

/-- Total wall-clock time a trace consumes. -/
def elapsedOf : List PollEvent → Nat
  | [] => 0
  | ev :: rest => eventDt ev + elapsedOf rest

/-- Concrete fixture: the `add_numbers(a, b)` tool function of
`Tools/math_operations.py` — adds its two inputs, raising `TypeError`
when handed a non-number (as Python `+` would). -/
def fAdd : ToolFunc :=
  ⟨"add_numbers", ["a", "b"],
   fun args =>
     match args with
     | [Value.int a, Value.int b] => .ok (.int (a + b))
     | _ => .error ⟨"TypeError", "unsupported operand type(s) for +"⟩⟩

/-- Concrete fixture: a parameterless checker whose successful output
text happens to contain the word "Error:". -/
def fChk : ToolFunc := ⟨"check", [], fun _ => .ok (.str "Error: 0 found")⟩

/-- Concrete fixture: a one-parameter probe returning a one-element list
holding the value bound to its parameter (so its result shows what it
was called with). -/
def fEcho : ToolFunc :=
  ⟨"probe", ["a"], fun args => .ok (.list [args.getD 0 (.str "UNCALLED")])⟩

/-- Concrete fixture: `add_numbers` as a code tool (non-blank
`tool_code`). -/
def toolAddCode : Tool := ⟨"add_numbers", some fAdd, Option.none⟩

/-- Concrete fixture: `add_numbers` as an import tool
(`import_from = "Tools.math_operations"`, blank `tool_code`). -/
def toolAddImp : Tool := ⟨"add_numbers", Option.none, some "Tools.math_operations"⟩

/-- Concrete fixture: the checker as a code tool. -/
def toolChk : Tool := ⟨"check", some fChk, Option.none⟩

/-- Concrete fixture: the probe as an import tool. -/
def toolEcho : Tool := ⟨"probe", Option.none, some "Tools.math_operations"⟩

/-- Concrete fixture: an environment whose import machinery serves the
`with_context`-decorated `add_numbers` and probe from
`Tools.math_operations`, and whose `eval` namespace defines a function
`f` returning `42` (any name the manager process has in scope). -/
def sysImp : SysEnv :=
  ⟨⟨noEnv.lookupVar,
    fun fn args =>
      if fn = "f" ∧ args = [] then .ok (.int 42) else noEnv.callFn fn args⟩,
   fun modPath sym =>
     if modPath = "Tools.math_operations" ∧ sym = "add_numbers" then .ok (importedMO fAdd)
     else if modPath = "Tools.math_operations" ∧ sym = "probe" then .ok (importedMO fEcho)
     else .error ⟨"ModuleNotFoundError", "No module named " ++ pyq ++ modPath ++ pyq⟩⟩

/-- Concrete fixture: an empty manager state (no kernels yet). -/
def mgr0 : MgrState := ⟨[], 0⟩

/-- Concrete fixture: the context binding `a` to 1 and `b` to 2. -/
def ctxAB : Context := [("a", Value.int 1), ("b", Value.int 2)]

/-- Concrete fixture: the context binding only `a`. -/
def ctxA : Context := [("a", Value.int 1)]

/-- Concrete fixture: the repr text the checker's worker run produces. -/
def chkOut : String := reprValue (Value.dict [("check", Value.str "Error: 0 found")])

/-- Concrete fixture: a tool with neither `tool_code` nor `import_from`
(both dispatch paths fail on it). -/
def toolBroken : Tool := ⟨"broken", Option.none, Option.none⟩

/-- Concrete fixture: workflow row 1 — the imported `add_numbers` at order 1. -/
def wfE1 : WfEntry := ⟨"task_add", toolAddImp, 1⟩

/-- Concrete fixture: workflow row 2 — the broken tool at order 2. -/
def wfE2 : WfEntry := ⟨"task_broken", toolBroken, 2⟩

/-- Concrete fixture: workflow row 3 — the imported probe at order 2. -/
def wfE3 : WfEntry := ⟨"task_probe", toolEcho, 2⟩

/-- Concrete fixture: a start/stop sequence against a pool of capacity 2. -/
def c5Ops : List PoolOp :=
  [.start "u1" Option.none, .start "u2" Option.none, .start "u3" Option.none,
   .stop "u1", .start "u4" Option.none]

/-- Concrete fixture: a submission trace delivering two stream texts and
then going idle. -/
def c8Trace : List PollEvent :=
  [.msg true (.stream "a") 1, .msg true (.stream "b") 1, .msg true (.status "idle") 0]

theorem ctxKeys_set_superset (ctx : Context) (k : String) (v : Value) :
    ctxKeys ctx ⊆ ctxKeys (ctxSet ctx k v) := by
  intro x hx
  unfold ctxSet
  by_cases h : ctxMem ctx k
  · simp only [h, if_true, ctxKeys, List.map_map, List.mem_map]
    simp only [ctxKeys, List.mem_map] at hx
    obtain ⟨p, hp, hpx⟩ := hx
    refine ⟨p, hp, ?_⟩
    by_cases hpk : p.1 = k
    · simp [Function.comp, hpk, ← hpx]
    · have hxk : ¬ (x = k) := by rw [← hpx]; exact hpk
      simp [Function.comp, hpk, hpx, hxk]
  · simp only [h, if_false, Bool.false_eq_true, ctxKeys, List.map_append, List.mem_append]
    exact Or.inl hx

theorem ctxKeys_update_superset (upd : Context) : ∀ ctx : Context,
    ctxKeys ctx ⊆ ctxKeys (ctxUpdate ctx upd) := by
  induction upd with
  | nil => intro ctx; simp [ctxUpdate]
  | cons p rest ih =>
    intro ctx
    have h1 : ctxUpdate ctx (p :: rest) = ctxUpdate (ctxSet ctx p.1 p.2) rest := by
      simp [ctxUpdate, List.foldl_cons]
    rw [h1]
    exact fun x hx => ih (ctxSet ctx p.1 p.2) (ctxKeys_set_superset ctx p.1 p.2 hx)

theorem ctxGet_set_self (ctx : Context) (k : String) (v : Value) :
    ctxGet (ctxSet ctx k v) k = some v := by
  unfold ctxSet
  by_cases h : ctxMem ctx k
  · simp only [h, if_true]
    induction ctx with
    | nil => simp [ctxMem] at h
    | cons p rest ih =>
      by_cases hpk : p.1 = k
      · simp [ctxGet, hpk]
      · simp only [List.map_cons, if_neg hpk]
        have hmem : ctxMem rest k = true := by
          simp [ctxMem] at h ⊢
          rcases h with h | h
          · exact absurd h hpk
          · exact h
        simpa [ctxGet, List.find?, hpk] using ih hmem
  · simp only [h, if_false]
    induction ctx with
    | nil => simp [ctxGet]
    | cons p rest ih =>
      have hpk : ¬ (p.1 = k) := by
        intro hc; exact h (by simp [ctxMem, hc])
      have hmem : ¬ (ctxMem rest k = true) := by
        intro hc; exact h (by simp [ctxMem] at hc ⊢; right; exact hc)
      simpa [ctxGet, List.find?, hpk] using ih hmem

theorem ctxAnyMap (ctx : Context) (k k2 : String) (v : Value) (hne : ¬ (k2 = k)) :
    (ctx.map fun p => if p.1 = k then (k, v) else p).any (fun p => p.1 = k2)
      = ctx.any (fun p => p.1 = k2) := by
  induction ctx with
  | nil => rfl
  | cons p rest ih =>
    by_cases hpk : p.1 = k
    · have h1 : ¬ (k = k2) := fun hc => hne hc.symm
      have h2 : ¬ (p.1 = k2) := by rw [hpk]; exact h1
      simp [hpk, h1, h2, ih]
    · simp [hpk, ih]

theorem ctxMem_set_other (ctx : Context) (k : String) (v : Value) (k2 : String)
    (hne : ¬ (k2 = k)) : ctxMem (ctxSet ctx k v) k2 = ctxMem ctx k2 := by
  unfold ctxSet
  by_cases h : ctxMem ctx k
  · rw [if_pos h]
    simp only [ctxMem]
    exact ctxAnyMap ctx k k2 v hne
  · rw [if_neg h]
    have h1 : ¬ (k = k2) := fun hc => hne hc.symm
    simp [ctxMem, h1]

theorem append_result_ne (s : String) : ¬ (s ++ "_result" = s) := by
  intro h
  have hlen := congrArg String.length h
  rw [String.length_append] at hlen
  have h7 : ("_result" : String).length = 7 := rfl
  omega

theorem bindParamsCE_missing (params : List String) (ctx : Context) (q : String)
    (hq : params.find? (fun p => (ctxGet ctx p).isNone) = some q) :
    bindParamsCE params ctx =
      .error ⟨"ValueError", "Required parameter " ++ pyq ++ q ++ pyq ++ " not found in context"⟩ := by
  induction params with
  | nil => simp [List.find?] at hq
  | cons p rest ih =>
    cases hget : ctxGet ctx p with
    | none =>
      have hpos : (fun x => (ctxGet ctx x).isNone) p = true := by simp [hget]
      rw [@List.find?_cons_of_pos _ (fun x => (ctxGet ctx x).isNone) p rest hpos] at hq
      have hqp : q = p := (Option.some.inj hq).symm
      subst hqp
      simp [bindParamsCE, hget]
    | some v =>
      have hneg : ¬ ((fun x => (ctxGet ctx x).isNone) p = true) := by simp [hget]
      rw [@List.find?_cons_of_neg _ (fun x => (ctxGet ctx x).isNone) p rest hneg] at hq
      simp [bindParamsCE, hget, ih hq, Except.map]

theorem pollLoop_replicate_empty (n : Nat) : ∀ st : ExecState,
    pollLoop (List.replicate n (.empty 1)) st = .exhausted ⟨st.output, st.error, st.elapsed + n⟩ := by
  induction n with
  | zero => intro st; simp [pollLoop]
  | succ n ih =>
    intro st
    rw [List.replicate_succ]
    rw [show pollLoop (PollEvent.empty 1 :: List.replicate n (.empty 1)) st
        = pollLoop (List.replicate n (.empty 1)) ⟨st.output, st.error, st.elapsed + 1⟩ from rfl]
    rw [ih]
    simp only [LoopExit.exhausted.injEq, ExecState.mk.injEq, true_and]
    omega

theorem pollLoop_append_benign (pre : List PollEvent) : ∀ (rest : List PollEvent) (st : ExecState),
    pre.all benignEvent = true →
    pollLoop (pre ++ rest) st
      = pollLoop rest ⟨st.output ++ collectOut pre, st.error, st.elapsed + elapsedOf pre⟩ := by
  induction pre with
  | nil => intro rest st _; simp [collectOut, elapsedOf]
  | cons ev pre' ih =>
    intro rest st hall
    rw [List.all_cons] at hall
    obtain ⟨hev, hrest⟩ := Bool.and_eq_true_iff.mp hall
    rw [List.cons_append]
    cases ev with
    | msg correlated m dt =>
      cases correlated with
      | false =>
        rw [show pollLoop (PollEvent.msg false m dt :: (pre' ++ rest)) st
            = pollLoop (pre' ++ rest) ⟨st.output, st.error, st.elapsed + dt⟩ from rfl]
        rw [ih rest _ hrest]
        cases m <;>
          simp [collectOut, elapsedOf, eventOut, eventDt, List.append_assoc, Nat.add_assoc]
      | true =>
        cases m with
        | stream t =>
          rw [show pollLoop (PollEvent.msg true (.stream t) dt :: (pre' ++ rest)) st
              = pollLoop (pre' ++ rest) ⟨st.output ++ [t], st.error, st.elapsed + dt⟩ from rfl]
          rw [ih rest _ hrest]
          simp [collectOut, elapsedOf, eventOut, eventDt, List.append_assoc, Nat.add_assoc]
        | executeResult t =>
          rw [show pollLoop (PollEvent.msg true (.executeResult t) dt :: (pre' ++ rest)) st
              = pollLoop (pre' ++ rest) ⟨st.output ++ [t], st.error, st.elapsed + dt⟩ from rfl]
          rw [ih rest _ hrest]
          simp [collectOut, elapsedOf, eventOut, eventDt, List.append_assoc, Nat.add_assoc]
        | errEvent e => simp [benignEvent] at hev
        | status s =>
          have hs : ¬ (s = "idle") := by simpa [benignEvent] using hev
          rw [show pollLoop (PollEvent.msg true (.status s) dt :: (pre' ++ rest)) st
              = if s = "idle" then .finished ⟨st.output, st.error, st.elapsed + dt⟩
                else pollLoop (pre' ++ rest) ⟨st.output, st.error, st.elapsed + dt⟩ from rfl]
          rw [if_neg hs, ih rest _ hrest]
          simp [collectOut, elapsedOf, eventOut, eventDt, List.append_assoc, Nat.add_assoc]
        | other =>
          rw [show pollLoop (PollEvent.msg true .other dt :: (pre' ++ rest)) st
              = pollLoop (pre' ++ rest) ⟨st.output, st.error, st.elapsed + dt⟩ from rfl]
          rw [ih rest _ hrest]
          simp [collectOut, elapsedOf, eventOut, eventDt, List.append_assoc, Nat.add_assoc]
    | empty dt =>
      rw [show pollLoop (PollEvent.empty dt :: (pre' ++ rest)) st
          = pollLoop (pre' ++ rest) ⟨st.output, st.error, st.elapsed + dt⟩ from rfl]
      rw [ih rest _ hrest]
      simp [collectOut, elapsedOf, eventOut, eventDt, List.append_assoc, Nat.add_assoc]
    | timeoutHit dt => simp [benignEvent] at hev
    | chanRaise t dt => simp [benignEvent] at hev

mutual

theorem pyEvalLit (env : PyEnv) : (e : PyExpr) → isLiteralExpr e = true → pyEval env e = pyEval noEnv e
  | .noneE, _ => rfl
  | .boolE _, _ => rfl
  | .intE _, _ => rfl
  | .strE _, _ => rfl
  | .listE xs, h => by
    have h2 : isLiteralList xs = true := by simpa [isLiteralExpr] using h
    simp only [pyEval, pyEvalLitList env xs h2]
  | .dictE kvs, h => by
    have h2 : isLiteralKvs kvs = true := by simpa [isLiteralExpr] using h
    simp only [pyEval, pyEvalLitKvs env kvs h2]
  | .nameE _, h => by simp [isLiteralExpr] at h
  | .callE _ _, h => by simp [isLiteralExpr] at h

theorem pyEvalLitList (env : PyEnv) :
    (xs : List PyExpr) → isLiteralList xs = true → pyEvalList env xs = pyEvalList noEnv xs
  | [], _ => rfl
  | e :: rest, h => by
    obtain ⟨h1, h2⟩ := Bool.and_eq_true_iff.mp (by simpa [isLiteralList] using h)
    simp only [pyEvalList, pyEvalLit env e h1, pyEvalLitList env rest h2]

theorem pyEvalLitKvs (env : PyEnv) :
    (kvs : List (String × PyExpr)) → isLiteralKvs kvs = true → pyEvalKvs env kvs = pyEvalKvs noEnv kvs
  | [], _ => rfl
  | (k, e) :: rest, h => by
    obtain ⟨h1, h2⟩ := Bool.and_eq_true_iff.mp (by simpa [isLiteralKvs] using h)
    simp only [pyEvalKvs, pyEvalLit env e h1, pyEvalLitKvs env rest h2]

end

theorem executeTaskByCode_cases (env : SysEnv) (tname : String) (tool : Tool)
    (ctx : Context) (st : MgrState) :
    ((executeTaskByCode env tname tool ctx st).1.success = false
      ∧ (executeTaskByCode env tname tool ctx st).1.context = ctx
      ∧ (executeTaskByCode env tname tool ctx st).1.task = some tname
      ∧ ((executeTaskByCode env tname tool ctx st).1.error).isSome = true)
    ∨ ((executeTaskByCode env tname tool ctx st).1.success = true
      ∧ ∃ d, (executeTaskByCode env tname tool ctx st).1.context = ctxUpdate ctx d) := by
  unfold executeTaskByCode
  split
  · left; exact ⟨rfl, rfl, rfl, rfl⟩
  · split
    · left; exact ⟨rfl, rfl, rfl, rfl⟩
    · split
      · left; exact ⟨rfl, rfl, rfl, rfl⟩
      · split
        · right; exact ⟨rfl, [], rfl⟩
        · split
          · left; exact ⟨rfl, rfl, rfl, rfl⟩
          · split
            · left; exact ⟨rfl, rfl, rfl, rfl⟩
            · right; exact ⟨rfl, _, rfl⟩

theorem executeTaskByImport_cases (env : SysEnv) (tname : String) (tool : Tool)
    (ctx : Context) :
    ((executeTaskByImport env tname tool ctx).success = false
      ∧ (executeTaskByImport env tname tool ctx).context = ctx
      ∧ (executeTaskByImport env tname tool ctx).task = some tname
      ∧ ((executeTaskByImport env tname tool ctx).error).isSome = true)
    ∨ ((executeTaskByImport env tname tool ctx).success = true
      ∧ ∃ d, (executeTaskByImport env tname tool ctx).context = ctxUpdate ctx d) := by
  unfold executeTaskByImport
  split
  · left; exact ⟨rfl, rfl, rfl, rfl⟩
  · split
    · left; exact ⟨rfl, rfl, rfl, rfl⟩
    · split
      · left; exact ⟨rfl, rfl, rfl, rfl⟩
      · right; exact ⟨rfl, _, rfl⟩

theorem stepTask_cases (env : SysEnv) (e : WfEntry) (ctx : Context) (st : MgrState) :
    ((stepTask env e ctx st).1.success = false
      ∧ (stepTask env e ctx st).1.context = ctx
      ∧ (stepTask env e ctx st).1.task = some e.taskName
      ∧ ((stepTask env e ctx st).1.error).isSome = true)
    ∨ ((stepTask env e ctx st).1.success = true
      ∧ ∃ d, (stepTask env e ctx st).1.context = ctxUpdate ctx d) := by
  unfold stepTask
  split
  · exact executeTaskByCode_cases env e.taskName e.tool ctx st
  · exact executeTaskByImport_cases env e.taskName e.tool ctx

theorem executeWorkflowTasks_cons (env : SysEnv) (e : WfEntry) (L : List WfEntry)
    (ctx : Context) (st : MgrState) :
    executeWorkflowTasks env (e :: L) ctx st
      = if (stepTask env e ctx st).1.success
        then executeWorkflowTasks env L (stepTask env e ctx st).1.context (stepTask env e ctx st).2
        else stepTask env e ctx st := rfl

theorem executeWorkflowTasks_append_of_success (env : SysEnv) (pre : List WfEntry) :
    ∀ (rest : List WfEntry) (ctx0 : Context) (st0 : MgrState) (ctxk : Context) (stk : MgrState),
    executeWorkflowTasks env pre ctx0 st0 = (⟨true, Option.none, Option.none, Option.none, ctxk⟩, stk) →
    executeWorkflowTasks env (pre ++ rest) ctx0 st0 = executeWorkflowTasks env rest ctxk stk := by
  induction pre with
  | nil =>
    intro rest ctx0 st0 ctxk stk h
    have h1 : (⟨true, Option.none, Option.none, Option.none, ctx0⟩ : TaskResult) = ⟨true, Option.none, Option.none, Option.none, ctxk⟩ ∧ st0 = stk := by
      constructor
      · exact congrArg Prod.fst h
      · exact congrArg Prod.snd h
    have hctx : ctx0 = ctxk := congrArg TaskResult.context h1.1
    rw [List.nil_append, hctx, h1.2]
  | cons e pre' ih =>
    intro rest ctx0 st0 ctxk stk h
    rw [List.cons_append, executeWorkflowTasks_cons]
    rw [executeWorkflowTasks_cons] at h
    by_cases hs : (stepTask env e ctx0 st0).1.success
    · rw [if_pos hs] at h ⊢
      exact ih rest _ _ ctxk stk h
    · rw [if_neg hs] at h
      exfalso
      apply hs
      have : (stepTask env e ctx0 st0).1.success = true := by
        rw [congrArg TaskResult.success (congrArg Prod.fst h)]
      exact this

theorem executeWorkflowTasks_keys (env : SysEnv) (ts : List WfEntry) :
    ∀ (ctx : Context) (st : MgrState),
    ctxKeys ctx ⊆ ctxKeys ((executeWorkflowTasks env ts ctx st).1.context) := by
  induction ts with
  | nil => intro ctx st; exact fun x hx => hx
  | cons e rest ih =>
    intro ctx st
    rw [executeWorkflowTasks_cons]
    rcases stepTask_cases env e ctx st with ⟨hf, hctx, _, _⟩ | ⟨hs, d, hctx⟩
    · rw [if_neg (by simp [hf])]
      rw [hctx]
      exact fun x hx => hx
    · rw [if_pos hs]
      exact fun x hx => ih _ _ (by rw [hctx]; exact ctxKeys_update_superset d ctx hx)

theorem poolInsert_length (pool : List String) (kid : String) :
    (poolInsert pool kid).length ≤ pool.length + 1 := by
  unfold poolInsert
  split
  · omega
  · simp

theorem stopKernel_length (kid : String) (pool : List String) :
    (stopKernel kid pool).length ≤ pool.length := by
  unfold stopKernel
  split
  · exact List.length_filter_le _ pool
  · omega

theorem poolSize_le (C : Nat) (ops : List PoolOp) : ∀ pool : List String,
    pool.length ≤ C → (applyPoolOps C ops pool).length ≤ C := by
  induction ops with
  | nil => intro pool h; exact h
  | cons op rest ih =>
    intro pool h
    cases op with
    | start g r =>
      show (applyPoolOps C rest (startKernel C g r pool).2).length ≤ C
      apply ih
      unfold startKernel
      by_cases hfull : pool.length ≥ C
      · rw [if_pos hfull]; exact h
      · rw [if_neg hfull]
        have h1 := poolInsert_length pool (r.getD g)
        simp only
        omega
    | stop kid =>
      show (applyPoolOps C rest (stopKernel kid pool)).length ≤ C
      exact ih _ (Nat.le_trans (stopKernel_length kid pool) h)

/-- C5: the worker pool never exceeds its capacity `C`: starting from the
empty registry, any sequence of start and stop operations keeps the
registry size at most `C`; and a start issued when the size equals `C`
registers nothing and returns no id. -/
theorem pool_capacity_invariant (C : Nat) (ops : List PoolOp) :
    (applyPoolOps C ops []).length ≤ C
    ∧ (∀ (pool : List String) (genId : String) (reqId : Option String),
        pool.length = C → startKernel C genId reqId pool = (Option.none, pool)) := by
  constructor
  · exact poolSize_le C ops [] (by simp)
  · intro pool g r hlen
    unfold startKernel
    rw [if_pos (by omega)]

theorem pool_capacity_invariant_witness :
    (applyPoolOps 2 c5Ops []).length ≤ 2
    ∧ startKernel 2 "u9" Option.none ["k1", "k2"] = (Option.none, ["k1", "k2"]) :=
  ⟨(pool_capacity_invariant 2 c5Ops).1,
   (pool_capacity_invariant 2 c5Ops).2 ["k1", "k2"] "u9" Option.none rfl⟩

/-- C10: a code-tool task whose worker run is clean (no error event, idle
received, accumulated output returned) is still reported as failed by
`execute_task_by_code`, with the successful output as the error message,
because success is decided by searching the output text for the
substrings "Error:" / "Exception:". -/
theorem success_misreported_on_error_substring :
    hasErrEvent (kernelRun fChk []) = false
    ∧ hasIdle (kernelRun fChk []) = true
    ∧ executeCodeResult (kernelRun fChk []) = some (some chkOut, 1)
    ∧ strContains chkOut "Error:" = true
    ∧ (executeTaskByCode sysImp "check_task" toolChk [] mgr0).1.success = false
    ∧ (executeTaskByCode sysImp "check_task" toolChk [] mgr0).1.error = some chkOut :=
  ⟨rfl, rfl, rfl, rfl, rfl, rfl⟩

/-- C2 (divergence evaluated at the failing input): on `add_numbers(a, b)`
with context `{a: 1, b: 2}` the worker path folds the scalar result under
the bare key "add_numbers" while the in-process path folds it under
"add_numbers_result", so the two context transformations differ; and with
`b` missing, the worker-side wrapper raises the required-parameter
ValueError while the in-process wrapper calls the function on a None
substitute (surfacing a TypeError from the body instead). -/
theorem dispatch_paths_diverge :
    (executeTaskByCode sysImp "t" toolAddCode ctxAB mgr0).1.context
      = [("a", Value.int 1), ("b", Value.int 2), ("add_numbers", Value.int 3)]
    ∧ (executeTaskByImport sysImp "t" toolAddImp ctxAB).context
      = [("a", Value.int 1), ("b", Value.int 2), ("add_numbers_result", Value.int 3)]
    ∧ ¬ ((executeTaskByCode sysImp "t" toolAddCode ctxAB mgr0).1.context
      = (executeTaskByImport sysImp "t" toolAddImp ctxAB).context)
    ∧ withContextCE fAdd ctxA
      = .error ⟨"ValueError", "Required parameter " ++ pyq ++ "b" ++ pyq ++ " not found in context"⟩
    ∧ withContextMO fAdd ctxA = .error ⟨"TypeError", "unsupported operand type(s) for +"⟩ :=
  ⟨rfl, rfl, by decide, rfl, rfl⟩

/-- C3 counterexample: `add_numbers` over `{a: 1, b: 2}` returns the bare
scalar 3, the task succeeds, yet the shared context afterwards has no key
"add_numbers_result" — the value sits under the bare key "add_numbers". -/
theorem worker_fold_key_counterexample :
    (executeTaskByCode sysImp "t1" toolAddCode ctxAB mgr0).1.success = true
    ∧ ctxMem ((executeTaskByCode sysImp "t1" toolAddCode ctxAB mgr0).1.context)
        "add_numbers_result" = false
    ∧ ctxGet ((executeTaskByCode sysImp "t1" toolAddCode ctxAB mgr0).1.context)
        "add_numbers" = some (Value.int 3) :=
  ⟨rfl, rfl, rfl⟩

/-- C3 amended: on the worker path, a function f whose inputs all bind
and whose body returns a bare scalar r folds to the single entry
`(f, r)` — the bare function name, not "f_result" — and after the merge
the context maps f to exactly r (gaining no "f_result" key it did not
already have); a mapping return is used as the folded dict key-by-key;
a None return folds to the empty dict and leaves the context unchanged. -/
theorem worker_fold_amended (f : ToolFunc) (ctx : Context) (args : List Value)
    (hbind : bindParamsCE f.params ctx = .ok args) :
    (∀ r : Value, f.body args = .ok r → isScalarV r = true →
      withContextCE f ctx = .ok [(f.name, r)]
      ∧ ctxGet (ctxUpdate ctx [(f.name, r)]) f.name = some r
      ∧ (ctxMem ctx (f.name ++ "_result") = false →
          ctxMem (ctxUpdate ctx [(f.name, r)]) (f.name ++ "_result") = false))
    ∧ (∀ kvs, f.body args = .ok (.dict kvs) → withContextCE f ctx = .ok kvs)
    ∧ (f.body args = .ok .none → withContextCE f ctx = .ok [] ∧ ctxUpdate ctx [] = ctx) := by
  have hupd : ∀ r : Value, ctxUpdate ctx [(f.name, r)] = ctxSet ctx f.name r := by
    intro r; simp [ctxUpdate]
  have hwc : withContextCE f ctx
      = (match f.body args with
         | Except.error e => Except.error e
         | Except.ok r => Except.ok (foldCE f.name r)) := by
    unfold withContextCE
    rw [hbind]
  refine ⟨?_, ?_, ?_⟩
  · intro r hr hsc
    refine ⟨?_, ?_, ?_⟩
    · rw [hwc, hr]
      cases r with
      | none => simp [isScalarV] at hsc
      | dict kvs => simp [isScalarV] at hsc
      | bool b => rfl
      | int n => rfl
      | str s => rfl
      | list xs => rfl
    · rw [hupd r]
      exact ctxGet_set_self ctx f.name r
    · intro hmem
      rw [hupd r, ctxMem_set_other ctx f.name r _ (append_result_ne f.name)]
      exact hmem
  · intro kvs hr
    rw [hwc, hr]
    rfl
  · intro hr
    constructor
    · rw [hwc, hr]
      rfl
    · simp [ctxUpdate]

theorem worker_fold_amended_witness :
    withContextCE fAdd ctxAB = .ok [("add_numbers", Value.int 3)]
    ∧ ctxGet (ctxUpdate ctxAB [("add_numbers", Value.int 3)]) "add_numbers"
      = some (Value.int 3) :=
  have h := worker_fold_amended fAdd ctxAB [Value.int 1, Value.int 2] rfl
  ⟨(h.1 (Value.int 3) rfl rfl).1, (h.1 (Value.int 3) rfl rfl).2.1⟩

/-- C6 counterexample: with `probe(a)` and an empty context, the
worker-side binding raises the required-parameter ValueError, but the
in-process binding calls the function with a None substitute and the
task succeeds — no MissingRequiredInput failure on that path. -/
theorem missing_input_counterexample :
    withContextCE fEcho []
      = .error ⟨"ValueError", "Required parameter " ++ pyq ++ "a" ++ pyq ++ " not found in context"⟩
    ∧ withContextMO fEcho [] = .ok [("probe_result", Value.list [Value.none])]
    ∧ (executeTaskByImport sysImp "t" toolEcho []).success = true
    ∧ (executeTaskByImport sysImp "t" toolEcho []).context
      = [("probe_result", Value.list [Value.none])] :=
  ⟨rfl, rfl, rfl, rfl⟩

/-- C6 amended: when a declared input is missing from the context, the
worker-side wrapper fails with the ValueError naming the first missing
parameter, without ever calling the function (the outcome is the same for
every body); the in-process wrapper instead binds None to each missing
input and calls the function — it succeeds whenever the body does. -/
theorem missing_input_amended (f : ToolFunc) (ctx : Context) (q : String)
    (hq : f.params.find? (fun p => (ctxGet ctx p).isNone) = some q) :
    (∀ g : List Value → Except PyErr Value,
      withContextCE ⟨f.name, f.params, g⟩ ctx
        = .error ⟨"ValueError", "Required parameter " ++ pyq ++ q ++ pyq ++ " not found in context"⟩)
    ∧ (∀ v : Value, isScalarV v = true →
        withContextMO ⟨f.name, f.params, fun _ => .ok v⟩ ctx = .ok [(f.name ++ "_result", v)])
    ∧ (∀ p, p ∈ f.params → ctxGet ctx p = Option.none →
        Value.none ∈ bindParamsMO f.params ctx) := by
  refine ⟨?_, ?_, ?_⟩
  · intro g
    unfold withContextCE
    rw [show (⟨f.name, f.params, g⟩ : ToolFunc).params = f.params from rfl,
        bindParamsCE_missing f.params ctx q hq]
  · intro v hv
    unfold withContextMO
    cases v with
    | none => simp [isScalarV] at hv
    | dict kvs => simp [isScalarV] at hv
    | bool b => rfl
    | int n => rfl
    | str s => rfl
    | list xs => rfl
  · intro p hp hget
    unfold bindParamsMO
    exact List.mem_map.mpr ⟨p, hp, by simp [hget]⟩

theorem missing_input_amended_witness :
    withContextCE ⟨"probe", ["a"], fun _ => .ok (Value.int 9)⟩ []
      = .error ⟨"ValueError", "Required parameter " ++ pyq ++ "a" ++ pyq ++ " not found in context"⟩
    ∧ withContextMO ⟨"probe", ["a"], fun _ => .ok (Value.int 9)⟩ []
      = .ok [("probe_result", Value.int 9)] :=
  have h := missing_input_amended fEcho [] "a" rfl
  ⟨h.1 (fun _ => .ok (Value.int 9)), h.2.1 (Value.int 9) rfl⟩

/-- C1 counterexample: the output text "f()" lies outside the literal
grammar (it is a call); the constrained parser of the spec rejects it,
but the dispatcher's deserializer evaluates it — invoking `f` from the
manager-process namespace and yielding its value 42 as the task result —
instead of returning a ResultParseError failure. -/
theorem eval_not_constrained_counterexample :
    parsePyExpr "f()" = some (PyExpr.callE "f" [])
    ∧ isLiteralExpr (PyExpr.callE "f" []) = false
    ∧ constrainedLiteralEval (PyExpr.callE "f" [])
      = .error ⟨"ValueError", "malformed node or string"⟩
    ∧ evalOutput sysImp.evalEnv "f()" = .ok (Value.int 42) :=
  ⟨rfl, rfl, rfl, rfl⟩

/-- C1 amended: the deserializer at `eval(output)` is the interpreter's
general eval: on expressions inside the constrained literal grammar it
agrees with the constrained literal parser (no environment is consulted),
but an expression outside that grammar is not rejected — it is evaluated,
executing code from the manager-process namespace. -/
theorem eval_literal_agreement (env : PyEnv) (e : PyExpr)
    (hlit : isLiteralExpr e = true) :
    pyEval env e = constrainedLiteralEval e
    ∧ evalOutput sysImp.evalEnv "f()" = .ok (Value.int 42)
    ∧ isLiteralExpr (PyExpr.callE "f" []) = false := by
  refine ⟨?_, rfl, rfl⟩
  unfold constrainedLiteralEval
  rw [if_pos hlit]
  exact pyEvalLit env e hlit

theorem eval_literal_agreement_witness :
    pyEval sysImp.evalEnv (PyExpr.listE [PyExpr.intE 1, PyExpr.strE "x"])
      = constrainedLiteralEval (PyExpr.listE [PyExpr.intE 1, PyExpr.strE "x"])
    ∧ evalOutput sysImp.evalEnv "f()" = .ok (Value.int 42)
    ∧ isLiteralExpr (PyExpr.callE "f" []) = false :=
  eval_literal_agreement sysImp.evalEnv (PyExpr.listE [PyExpr.intE 1, PyExpr.strE "x"]) rfl

/-- C8 counterexample: two correlated stream texts "a" then "b" arrive
before the idle status; the loop accumulated both in order, but the call
returns only "b" — the text "a" is dropped from the returned result,
which is not the appended accumulation "ab". -/
theorem output_dropped_counterexample :
    collectOut c8Trace = ["a", "b"]
    ∧ hasErrEvent c8Trace = false
    ∧ executeCodeResult c8Trace = some (some "b", 2)
    ∧ ¬ (executeCodeResult c8Trace = some (some ("a" ++ "b"), 2))
    ∧ strContains "b" "a" = false :=
  ⟨rfl, rfl, rfl, by decide, rfl⟩

/-- C8 amended: for a submission that completes cleanly (a correlated
idle after poll turns that record no error and do not break the loop),
the loop does append every correlated stream/result text in arrival
order, but the value returned is only the last accumulated item that is
non-empty and not all whitespace (None when there is none) — earlier
output texts are dropped from the returned value. -/
theorem submission_returns_last_nonblank (pre : List PollEvent) (d : Nat)
    (hben : pre.all benignEvent = true) :
    executeCodeResult (pre ++ [.msg true (.status "idle") d])
      = some (lastNonEmpty (collectOut pre), elapsedOf pre + d) := by
  unfold executeCodeResult
  rw [pollLoop_append_benign pre _ initExecState hben]
  simp [pollLoop, initExecState]

theorem submission_returns_last_nonblank_witness :
    executeCodeResult ([PollEvent.msg true (.stream "x") 1]
        ++ [PollEvent.msg true (.status "idle") 0])
      = some (lastNonEmpty (collectOut [PollEvent.msg true (.stream "x") 1]),
              elapsedOf [PollEvent.msg true (.stream "x") 1] + 0) :=
  submission_returns_last_nonblank [PollEvent.msg true (.stream "x") 1] 0 rfl

/-- C7 counterexample: with the default timeout T = 30 and the one-second
poll wait, a worker that never signals idle and never errors: after 40
Empty polls, 40 seconds have elapsed — beyond T + one poll interval = 31
— and the loop is still polling; no timeout failure was returned in
`[T, T + 1)`, and the loop did not terminate within that bound. -/
theorem no_aggregate_timeout_counterexample :
    hasIdle (List.replicate 40 (PollEvent.empty 1)) = false
    ∧ hasErrEvent (List.replicate 40 (PollEvent.empty 1)) = false
    ∧ pollLoop (List.replicate 40 (PollEvent.empty 1)) initExecState
        = .exhausted ⟨[], Option.none, 40⟩
    ∧ executeCodeResult (List.replicate 40 (PollEvent.empty 1)) = Option.none
    ∧ 30 + 1 ≤ 40 :=
  ⟨by decide, by decide, by decide, by decide, by decide⟩

/-- C7 amended: the `timeout` bounds each single message-wait, not the
aggregate: polls that return Empty within the one-second channel wait
never trigger it, so a submission that never signals idle can keep
polling with unboundedly growing elapsed time; the "Execution timed out"
failure arises only when one single wait itself reaches T, and is then
reported at elapsed time (time already spent) + T — at least T, but with
no `T + one poll interval` upper bound. -/
theorem per_poll_timeout_amended (n T : Nat) (pre : List PollEvent)
    (hben : pre.all benignEvent = true) :
    pollLoop (List.replicate n (.empty 1)) initExecState
      = .exhausted ⟨[], Option.none, n⟩
    ∧ executeCodeResult (pre ++ [.timeoutHit T])
      = some (some "Execution timed out", elapsedOf pre + T) := by
  constructor
  · simpa [initExecState] using pollLoop_replicate_empty n initExecState
  · unfold executeCodeResult
    rw [pollLoop_append_benign pre _ initExecState hben]
    simp [pollLoop, initExecState]

theorem per_poll_timeout_amended_witness :
    pollLoop (List.replicate 2 (.empty 1)) initExecState
      = .exhausted ⟨[], Option.none, 2⟩
    ∧ executeCodeResult ([PollEvent.empty 1] ++ [.timeoutHit 30])
      = some (some "Execution timed out", elapsedOf [PollEvent.empty 1] + 30) :=
  per_poll_timeout_amended 2 30 [PollEvent.empty 1] rfl

/-- C4: on the first failing task of a run, `execute_workflow` returns
that task's failure result at once — the result is the same whatever
tasks follow, so none of them is dispatched — with `success = false`, the
failing task's name, a non-empty error detail, and the shared context
exactly as it stood right before the failing task (earlier mutations
kept, none applied by the failing task). -/
theorem workflow_stops_at_first_failure (env : SysEnv)
    (entries pre post : List WfEntry) (t : WfEntry)
    (ctx0 ctxk : Context) (st0 stk : MgrState)
    (hsort : List.insertionSort entryLE entries = pre ++ t :: post)
    (hpre : executeWorkflowTasks env pre ctx0 st0
      = (⟨true, Option.none, Option.none, Option.none, ctxk⟩, stk))
    (hfail : (stepTask env t ctxk stk).1.success = false) :
    (executeWorkflow env entries ctx0 st0).1 = (stepTask env t ctxk stk).1
    ∧ (stepTask env t ctxk stk).1.success = false
    ∧ (stepTask env t ctxk stk).1.task = some t.taskName
    ∧ ((stepTask env t ctxk stk).1.error).isSome = true
    ∧ (stepTask env t ctxk stk).1.context = ctxk := by
  have h1 : executeWorkflow env entries ctx0 st0 = executeWorkflowTasks env (t :: post) ctxk stk := by
    unfold executeWorkflow
    rw [hsort]
    exact executeWorkflowTasks_append_of_success env pre (t :: post) ctx0 st0 ctxk stk hpre
  have h2 : executeWorkflowTasks env (t :: post) ctxk stk = stepTask env t ctxk stk := by
    rw [executeWorkflowTasks_cons, if_neg (by simp [hfail])]
  rcases stepTask_cases env t ctxk stk with ⟨_, hctx, htask, herr⟩ | ⟨hs, _⟩
  · exact ⟨by rw [h1, h2], hfail, htask, herr, hctx⟩
  · rw [hfail] at hs
    exact absurd hs (by simp)

theorem workflow_stops_at_first_failure_witness :
    (executeWorkflow sysImp [wfE1, wfE2] ctxAB mgr0).1
        = (stepTask sysImp wfE2
            [("a", Value.int 1), ("b", Value.int 2), ("add_numbers_result", Value.int 3)] mgr0).1
    ∧ (stepTask sysImp wfE2
        [("a", Value.int 1), ("b", Value.int 2), ("add_numbers_result", Value.int 3)] mgr0).1.success = false
    ∧ (stepTask sysImp wfE2
        [("a", Value.int 1), ("b", Value.int 2), ("add_numbers_result", Value.int 3)] mgr0).1.task
        = some wfE2.taskName
    ∧ ((stepTask sysImp wfE2
        [("a", Value.int 1), ("b", Value.int 2), ("add_numbers_result", Value.int 3)] mgr0).1.error).isSome = true
    ∧ (stepTask sysImp wfE2
        [("a", Value.int 1), ("b", Value.int 2), ("add_numbers_result", Value.int 3)] mgr0).1.context
        = [("a", Value.int 1), ("b", Value.int 2), ("add_numbers_result", Value.int 3)] :=
  workflow_stops_at_first_failure sysImp [wfE1, wfE2] [wfE1] [] wfE2
    ctxAB [("a", Value.int 1), ("b", Value.int 2), ("add_numbers_result", Value.int 3)]
    mgr0 mgr0 rfl rfl rfl

/-- C9: for a workflow whose order values are pairwise distinct (their
stated invariant), the dispatch sequence — the task list as sorted by
`ORDER BY r.order` — has strictly increasing order fields, and when the
run succeeds the final context's key set contains every key of the
initial context (folding only ever adds or overwrites keys). -/
theorem workflow_order_and_keys (env : SysEnv) (entries : List WfEntry)
    (ctx0 : Context) (st0 : MgrState)
    (hdist : (entries.map WfEntry.order).Pairwise (· ≠ ·))
    (_hsucc : (executeWorkflow env entries ctx0 st0).1.success = true) :
    ((List.insertionSort entryLE entries).map WfEntry.order).Pairwise (· < ·)
    ∧ ctxKeys ctx0 ⊆ ctxKeys ((executeWorkflow env entries ctx0 st0).1.context) := by
  constructor
  · have hsorted : List.Sorted entryLE (List.insertionSort entryLE entries) :=
      List.sorted_insertionSort entryLE entries
    have hperm : List.Perm (List.insertionSort entryLE entries) entries :=
      List.perm_insertionSort entryLE entries
    have hpm : List.Perm ((List.insertionSort entryLE entries).map WfEntry.order)
        (entries.map WfEntry.order) :=
      hperm.map _
    have hdist2 : ((List.insertionSort entryLE entries).map WfEntry.order).Pairwise (· ≠ ·) :=
      (List.Perm.pairwise_iff (fun h => Ne.symm h) hpm).mpr hdist
    have hle : ((List.insertionSort entryLE entries).map WfEntry.order).Pairwise (· ≤ ·) :=
      List.Pairwise.map WfEntry.order (fun _ _ h => h) hsorted
    exact (hle.and hdist2).imp (fun h => lt_of_le_of_ne h.1 h.2)
  · unfold executeWorkflow
    exact executeWorkflowTasks_keys env _ ctx0 st0

theorem workflow_order_and_keys_witness :
    ((List.insertionSort entryLE [wfE1, wfE3]).map WfEntry.order).Pairwise (· < ·)
    ∧ ctxKeys ctxAB ⊆ ctxKeys ((executeWorkflow sysImp [wfE1, wfE3] ctxAB mgr0).1.context) :=
  workflow_order_and_keys sysImp [wfE1, wfE3] ctxAB mgr0 (by decide) rfl
